import Mathlib

/-!
# Verification of the chat-sdk websocket hub and read-cursor session layer

This development is a shallow embedding, in Lean, of the read-cursor /
connection-hub core of the `chat-sdk` Go repository (`ws.go`,
`ws_on_function.go`, `service/session_bootstrap_service.go`), together with
proofs about that embedding.

Modelling conventions:
* Go `map[uint64]uint64` / `map[uint64]T` values are modelled as association
  lists (`List (Nat × T)`) with key-unique lookups (`alLookup`), `alInsert`
  replacing in place and `alErase` deleting a key, matching Go map semantics
  up to iteration order (which the modelled code never depends on).
* `time.Time` is modelled as a `Nat` tick; the Go zero time corresponds to
  tick `0` (`IsZero` becomes `= 0`), and `time.Now()` is passed in explicitly
  as a `now` parameter.  The hub state carries a logical clock that advances
  by one on every processed event, so each `time.AfterFunc` timer created at
  a different moment is a different value, as in Go.
* Goroutine interleavings are not modelled: the hub's `Run` loop serialises
  register/unregister/broadcast/timer events, so its effect is faithfully a
  sequential step function over hub states.
* External services (`FlushUserRead`, `GetRoomByID`, `SaveMessage`, DB
  queries, ...) are modelled as oracle parameters giving their results;
  the embedded code only depends on those results.
-/

namespace ChatSdk

/-- Association-list lookup, modelling Go map indexing `m[k]`. -/
def alLookup {α : Type} (k : Nat) : List (Nat × α) → Option α
  | [] => none
  | (k1, v) :: t => if k1 = k then some v else alLookup k t

/-- Association-list insert/replace, modelling Go map assignment `m[k] = v`. -/
def alInsert {α : Type} (k : Nat) (v : α) : List (Nat × α) → List (Nat × α)
  | [] => [(k, v)]
  | (k1, v1) :: t => if k1 = k then (k, v) :: t else (k1, v1) :: alInsert k v t

/-- Association-list delete, modelling Go `delete(m, k)`. -/
def alErase {α : Type} (k : Nat) : List (Nat × α) → List (Nat × α)
  | [] => []
  | (k1, v) :: t => if k1 = k then alErase k t else (k1, v) :: alErase k t

/-- The keys of an association list. -/
def alKeys {α : Type} (l : List (Nat × α)) : List Nat :=
  l.map Prod.fst

/-! ## UserSession (ws.go lines 62-138, 504-532) -/

/-- Model of the Go `UserSession` struct (`ws.go`).  `readList` is the
room-id → last-read-message-id map; `lastFlush = 0` models the Go zero
`time.Time` (never flushed). -/
structure UserSession where
  userID : Nat
  name : String
  nickname : String
  avatar : String
  readList : List (Nat × Nat)
  lastSeen : Nat
  dirty : Bool
  lastFlush : Nat
  lastReadChangeAt : Nat
deriving DecidableEq, Repr

/-- A fresh session as built at register / ServeWS time (`ws.go` 273, 431). -/
def newUserSession (uid : Nat) (name nickname avatar : String) (now : Nat) : UserSession :=
  { userID := uid, name := name, nickname := nickname, avatar := avatar
    readList := [], lastSeen := now, dirty := false, lastFlush := 0
    lastReadChangeAt := 0 }

/-- The stored cursor of a room, with the Go missing-key default `0`
(`s.ReadList[roomID]` on a missing key yields `0`). -/
def cursorOf (s : UserSession) (roomID : Nat) : Nat :=
  (alLookup roomID s.readList).getD 0

/-- Model of `UserSession.mergeRead` (`ws.go` 84-99): ignore zero ids,
keep the per-room maximum, set `dirty` and stamp the change time when the
stored value actually grows, and always stamp `lastSeen` once past the
zero-sentinel guard. -/
def mergeRead (s : UserSession) (roomID lastRead now : Nat) : UserSession :=
  if roomID = 0 ∨ lastRead = 0 then s
  else if lastRead > cursorOf s roomID then
    { s with readList := alInsert roomID lastRead s.readList
             dirty := true
             lastReadChangeAt := now
             lastSeen := now }
  else { s with lastSeen := now }

/-- Model of `UserSession.snapshotRead` (`ws.go` 101-112): `none` when the
read list is empty, otherwise a copy of it. -/
def snapshotRead (s : UserSession) : Option (List (Nat × Nat)) :=
  if s.readList = [] then none else some s.readList

/-- Model of `UserSession.markFlushed` (`ws.go` 115-124): clear `dirty`,
stamp `lastFlush`, and (when the new `lastFlush` is non-zero, which in Go is
always) move `lastReadChangeAt` up to it. -/
def markFlushed (s : UserSession) (now : Nat) : UserSession :=
  let s1 := { s with dirty := false, lastFlush := now }
  if now ≠ 0 then { s1 with lastReadChangeAt := now } else s1

/-- Model of `UserSession.snapshotReadAndDirty` (`ws.go` 127-138). -/
def snapshotReadAndDirty (s : UserSession) : Option (List (Nat × Nat)) × Bool :=
  if ¬ s.dirty ∨ s.readList = [] then (none, false)
  else (some s.readList, true)

/-- Model of `UserSession.pruneReadListIfIdle` (`ws.go` 504-532).  The Go
guard `idleFor <= 0` becomes `idleFor = 0` on `Nat`; `now.Sub` is truncated
subtraction, which agrees with the Go comparison `now.Sub(...) < idleFor`
for every positive `idleFor` even when the clock reads earlier than the
last change. -/
def pruneReadListIfIdle (s : UserSession) (idleFor now : Nat) : UserSession :=
  if idleFor = 0 then s
  else if s.dirty then s
  else if s.readList = [] then s
  else if s.lastFlush = 0 then s
  else if s.lastReadChangeAt = 0 then s
  else if now - s.lastReadChangeAt < idleFor then s
  else { s with readList := [] }

/-! ## Hub state (ws.go lines 203-232) -/

/-- A websocket connection as the hub sees it: `cid` models the Go `*Client`
pointer identity, `uid` the `Client.UserID` field. -/
structure Conn where
  cid : Nat
  uid : Nat
deriving DecidableEq, Repr

/-- Model of the Go `WsServer` registries (`ws.go` 203-220).
`clients` is the registered-connection set, `userClients` the per-user
connection lists, `sessions` the user-session map, and `gcTimers` maps a
user id to the logical time at which its current reclamation timer was
scheduled (a fresh `time.AfterFunc` per schedule).  `closedQueues` records
the connections whose outbound channel has been closed, and `panicked`
becomes true if a channel is ever closed twice (a Go runtime panic).
`now` is the logical clock, advanced once per processed event. -/
structure HubState where
  clients : List Conn
  userClients : List (Nat × List Conn)
  sessions : List (Nat × UserSession)
  gcTimers : List (Nat × Nat)
  closedQueues : List Conn
  panicked : Bool
  now : Nat
deriving DecidableEq, Repr

/-- Model of `NewWsServer` (`ws.go` 222-232): all registries empty. -/
def initHub : HubState :=
  { clients := [], userClients := [], sessions := [], gcTimers := []
    closedQueues := [], panicked := false, now := 1 }

/-- The Go read `h.userClients[uid]` (missing key gives the empty list). -/
def byUserList (st : HubState) (uid : Nat) : List Conn :=
  (alLookup uid st.userClients).getD []

/-- Model of the `register` case of `WsServer.Run` (`ws.go` 268-292):
reuse or create the user session (refreshing the display fields), cancel
any pending reclamation timer, add the connection to the client set and
append it to the user's connection list. -/
def registerStep (st : HubState) (c : Conn) (name nickname avatar : String) : HubState :=
  let sess :=
    match alLookup c.uid st.sessions with
    | some s => { s with name := name, nickname := nickname, avatar := avatar
                         lastSeen := st.now }
    | none => newUserSession c.uid name nickname avatar st.now
  { st with
    sessions := alInsert c.uid sess st.sessions
    gcTimers := alErase c.uid st.gcTimers
    clients := if c ∈ st.clients then st.clients else c :: st.clients
    userClients := alInsert c.uid (byUserList st c.uid ++ [c]) st.userClients
    now := st.now + 1 }

/-- Model of the `unregister` case of `WsServer.Run` (`ws.go` 294-348):
when the connection is still registered, remove it from the client set,
close its outbound channel (a second close would panic) and remove it from
its user's connection list; then — unconditionally — stop any existing
reclamation timer for that user and schedule a fresh one. -/
def unregisterStep (st : HubState) (c : Conn) : HubState :=
  let st1 :=
    if c ∈ st.clients then
      let stA := { st with
        clients := st.clients.erase c
        closedQueues := c :: st.closedQueues
        panicked := st.panicked || decide (c ∈ st.closedQueues) }
      match alLookup c.uid st.userClients with
      | some l => { stA with userClients := alInsert c.uid (l.erase c) st.userClients }
      | none => stA
    else st
  { st1 with
    gcTimers := alInsert c.uid st1.now st1.gcTimers
    now := st1.now + 1 }

/-- Model of the reclamation-timer callback scheduled by the unregister case
(`ws.go` 318-346).  `flushOk` is the result of the external
`FlushUserRead` call; the Go code discards it (`_ = ...FlushUserRead(...)`),
so it does not influence the resulting state: if the user still has live
connections the callback returns, otherwise it deletes the user from
`userClients`, `Sessions` and `gcTimers` regardless of the flush outcome. -/
def gcFireStep (st : HubState) (uid : Nat) (_flushOk : Bool) : HubState :=
  if byUserList st uid ≠ [] then st
  else
    { st with
      userClients := alErase uid st.userClients
      sessions := alErase uid st.sessions
      gcTimers := alErase uid st.gcTimers }

/-- One session's share of the periodic flush sweep (`ws.go` 240-266):
if the session is dirty with a non-empty read list, the sweep flushes it
through the external service and calls `markFlushed` only on success
(`flushOk`); it then always runs the ten-minute idle prune.  The idle
window `10 * time.Minute` is `600` clock ticks (seconds). -/
def sweepSession (s : UserSession) (flushOk : Bool) (now : Nat) : UserSession :=
  let s1 :=
    match (snapshotReadAndDirty s).1 with
    | some _ => if flushOk then markFlushed s now else s
    | none => s
  pruneReadListIfIdle s1 600 now

/-- Model of the bootstrap load in `ServeWS` (`ws.go` 446-463): only when
the session was just created or its read list is currently empty, and only
when the bootstrap service is present and its DB query succeeds
(`dbResult = some m`), merge every loaded `(room, lastRead)` pair into the
session and then clear `dirty` (the initial load is not an unflushed
change).  In every other case the session is left alone. -/
def bootstrapLoad (sess : UserSession) (created : Bool)
    (dbResult : Option (List (Nat × Nat))) (now : Nat) : UserSession :=
  if created || sess.readList.isEmpty then
    match dbResult with
    | some m =>
      let s1 := m.foldl (fun s p => mergeRead s p.1 p.2 now) sess
      { s1 with dirty := false }
    | none => sess
  else sess

/-- Model of the session-handling preamble of `WsServer.ServeWS`
(`ws.go` 425-463), run before the register event is sent: reuse or create
the user session (refreshing display fields), cancel any pending
reclamation timer, then run the bootstrap load. -/
def serveWsPrep (st : HubState) (uid : Nat) (name nickname avatar : String)
    (dbResult : Option (List (Nat × Nat))) : HubState :=
  let (sess, created) :=
    match alLookup uid st.sessions with
    | some s => ({ s with name := name, nickname := nickname, avatar := avatar
                          lastSeen := st.now }, false)
    | none => (newUserSession uid name nickname avatar st.now, true)
  let sess2 := bootstrapLoad sess created dbResult st.now
  { st with
    sessions := alInsert uid sess2 st.sessions
    gcTimers := alErase uid st.gcTimers
    now := st.now + 1 }

/-! ## Hub event traces (register/unregister) -/

/-- A register/unregister event as consumed by the `Run` loop. -/
inductive HEvent where
  | reg (c : Conn) (name nickname avatar : String)
  | unreg (c : Conn)
deriving DecidableEq, Repr

/-- One `Run`-loop step. -/
def hubStep (st : HubState) : HEvent → HubState
  | .reg c name nickname avatar => registerStep st c name nickname avatar
  | .unreg c => unregisterStep st c

/-- Run a list of events from a given hub state. -/
def runFrom (st : HubState) (evs : List HEvent) : HubState :=
  evs.foldl hubStep st

/-- Run a list of events from the freshly-constructed hub. -/
def run (evs : List HEvent) : HubState :=
  runFrom initHub evs

/-- Validity of an event sequence from a given state: every register event
carries a fresh connection (Go's `ServeWS` allocates a new `*Client` per
connection, so a registered or previously-closed pointer never registers
again). -/
def validFrom (st : HubState) : List HEvent → Bool
  | [] => true
  | e :: t =>
    (match e with
     | .reg c _ _ _ => decide (c ∉ st.clients) && decide (c ∉ st.closedQueues)
     | .unreg _ => true) && validFrom (hubStep st e) t

/-- Whether connection `c` is between its register and its unregister after
the events `evs`, starting from liveness `b`. -/
def liveFrom (b : Bool) (evs : List HEvent) (c : Conn) : Bool :=
  evs.foldl
    (fun b e =>
      match e with
      | .reg c1 _ _ _ => if c1 = c then true else b
      | .unreg c1 => if c1 = c then false else b) b

/-- A connection is live after a trace iff its most recent event is a
register. -/
def liveAfter (evs : List HEvent) (c : Conn) : Bool :=
  liveFrom false evs c

/-- Whether the most recent event touching a connection of user `u` is an
unregister, starting from `b`. -/
def lastUserEventIsUnreg (b : Bool) (evs : List HEvent) (u : Nat) : Bool :=
  evs.foldl
    (fun b e =>
      match e with
      | .reg c1 _ _ _ => if c1.uid = u then false else b
      | .unreg c1 => if c1.uid = u then true else b) b

/-- The total number of connections held across all `byUser` lists. -/
def sumUserConns (st : HubState) : Nat :=
  (st.userClients.map (fun p => p.2.length)).sum

/-! ## SendToUser fan-out (ws.go lines 485-499) -/

/-- The Go per-connection outbound channel capacity (`make(chan []byte, 256)`,
`ws.go` 468). -/
def sendQueueCap : Nat := 256

/-- The non-blocking enqueue `select \x7b case client.send <- msg: default: \x7d`
(`ws.go` 493-497): append when the bounded queue has room, silently drop
otherwise. -/
def enqueueNonBlocking (q : List String) (msg : String) : List String :=
  if q.length < sendQueueCap then q ++ [msg] else q

/-- Model of `WsServer.SendToUser` (`ws.go` 485-499): read the user's
connection list and attempt a non-blocking enqueue on each connection's
queue in turn.  `Q` maps each connection to its current outbound queue. -/
def sendToUser (conns : List Conn) (Q : Conn → List String) (msg : String) :
    Conn → List String :=
  conns.foldl
    (fun f c => fun c1 => if c1 = c then enqueueNonBlocking (f c) msg else f c1) Q

/-! ## Inbound message router (ws_on_function.go lines 15-140) -/

/-- A room row as returned by `RoomService.GetRoomByID`; `typ` is the Go
`Room.Type` (1 = private chat, 2 = group chat). -/
structure Room where
  id : Nat
  typ : Nat
deriving DecidableEq, Repr

/-- The persisted message returned by `MsgService.SaveMessage`. -/
structure SavedMsg where
  id : Nat
  senderID : Nat
  typ : Nat
  content : String
  createdAt : Nat
deriving DecidableEq, Repr

/-- The decoded send request (`message.Req`). -/
structure SendReq where
  sendTo : Nat
  sendContent : String
  sendType : Nat
  packetID : String
deriving DecidableEq, Repr

/-- The inbound payload after JSON decoding, as the `onMessage` callback
distinguishes the cases: a well-formed read-ack, a read-ack whose body
fails to unmarshal, a well-formed send request, or a payload that fails
the `message.Req` unmarshal. -/
inductive Inbound where
  | readAck (roomID lastReadMsgID : Nat)
  | badReadAck
  | sendMsg (req : SendReq)
  | badPayload
deriving DecidableEq, Repr

/-- Results of the external collaborators consulted by the router; `Except`
errors model the Go non-nil `error` returns. -/
structure RouterOracle where
  getRoom : Nat → Except String Room
  blockedPrivate : Nat → Nat → Except Unit Bool
  isMember : Nat → Nat → Except Unit Bool
  saveMessage : Nat → Nat → String → Nat → Except String SavedMsg
  getMembers : Nat → Except Unit (List Nat)

/-- An outbound envelope produced by the router: either the error envelope
built by `sendWsError` (`ws_on_function.go` 133-140) or the fan-out message
envelope (`ws_on_function.go` 96-126). -/
inductive Outbound where
  | errorEnv (message packetID : String)
  | msgEnv (packetID : String) (id roomID roomType senderID msgType : Nat)
      (content : String) (createdAt : Nat)
deriving DecidableEq, Repr

/-- The blocked-private error text (`ws_on_function.go` 62). -/
def blockedErrText : String := "你们已互相拉黑/被对方拉黑，无法发送消息"

/-- The not-a-member error text (`ws_on_function.go` 74). -/
def notMemberErrText : String := "你已不是群成员，无法发送消息"

/-- Model of the `onMessage` callback installed by
`ChatEngine.bindWsHandlersOnMessage` (`ws_on_function.go` 15-131).  It
returns the sender's updated session together with the list of
`SendToUser` calls made, as `(target user, envelope)` pairs, in order.
Failed room lookups, failed block/membership queries and malformed
payloads only log and return; a positive block/membership verdict and a
`SaveMessage` error produce exactly one `sendWsError` to the sender. -/
def onMessage (o : RouterOracle) (senderID : Nat) (sess : UserSession)
    (now : Nat) : Inbound → UserSession × List (Nat × Outbound)
  | .readAck roomID lastRead =>
    if roomID = 0 ∨ lastRead = 0 then (sess, [])
    else (mergeRead sess roomID lastRead now, [])
  | .badReadAck => (sess, [])
  | .badPayload => (sess, [])
  | .sendMsg req =>
    match o.getRoom req.sendTo with
    | .error _ => (sess, [])
    | .ok room =>
      let afterChecks : Option (Option (Nat × Outbound)) :=
        -- `none`: silently dropped; `some none`: checks passed;
        -- `some (some e)`: rejected with error envelope `e`.
        if room.typ = 1 then
          match o.blockedPrivate room.id senderID with
          | .error _ => none
          | .ok true => some (some (senderID, .errorEnv blockedErrText req.packetID))
          | .ok false => some none
        else if room.typ = 2 then
          match o.isMember room.id senderID with
          | .error _ => none
          | .ok false => some (some (senderID, .errorEnv notMemberErrText req.packetID))
          | .ok true => some none
        else some none
      match afterChecks with
      | none => (sess, [])
      | some (some e) => (sess, [e])
      | some none =>
        match o.saveMessage room.id senderID req.sendContent req.sendType with
        | .error msg => (sess, [(senderID, .errorEnv msg req.packetID)])
        | .ok saved =>
          let sess1 := mergeRead sess room.id saved.id now
          match o.getMembers room.id with
          | .error _ => (sess1, [])
          | .ok members =>
            (sess1,
             members.map (fun m =>
               (m, Outbound.msgEnv req.packetID saved.id room.id room.typ
                     saved.senderID saved.typ saved.content saved.createdAt)))

/-! ## Auxiliary definitions for the statements -/

/-- A sequence of `mergeRead` calls for one room; each ack is a
`(lastRead, arrival time)` pair. -/
def mergeReadSeq (s : UserSession) (roomID : Nat) (acks : List (Nat × Nat)) : UserSession :=
  acks.foldl (fun s p => mergeRead s roomID p.1 p.2) s

/-- The maximum of a list of naturals (`0` when empty). -/
def listMax (l : List Nat) : Nat :=
  l.foldr max 0

/-- All connections held across the `byUser` lists, in map order. -/
def joinConns (l : List (Nat × List Conn)) : List Conn :=
  (l.map Prod.snd).flatten

/-- The registry well-formedness invariant maintained by the `Run` loop:
user-map keys are unique, every connection listed under a user carries that
user's id, the listed connections are a permutation of the client set, and
the client set has no duplicates. -/
structure HubInv (st : HubState) : Prop where
  keysNodup : (alKeys st.userClients).Nodup
  uidsMatch : ∀ u l, alLookup u st.userClients = some l → ∀ c ∈ l, c.uid = u
  permJoin : st.clients.Perm (joinConns st.userClients)
  clientsNodup : st.clients.Nodup

/-! ## Concrete states used by witnesses and counterexamples -/

/-- A fresh session for user 7, used by concrete instances. -/
def sC1 : UserSession := newUserSession 7 "u" "nick" "av" 1

/-- A dirty session holding an unflushed cursor, for the reclamation-path
counterexample. -/
def sC2 : UserSession :=
  { userID := 7, name := "u", nickname := "n", avatar := "a"
    readList := [(1, 5)], lastSeen := 3, dirty := true, lastFlush := 0
    lastReadChangeAt := 3 }

/-- A hub state in which user 7 has zero live connections, a pending
reclamation timer and a dirty session. -/
def stC2 : HubState :=
  { clients := [], userClients := [(7, [])], sessions := [(7, sC2)]
    gcTimers := [(7, 2)], closedQueues := [], panicked := false, now := 9 }

/-- Connection 1 of user 7. -/
def cA : Conn := ⟨1, 7⟩

/-- Connection 2 of user 7. -/
def cB : Conn := ⟨2, 7⟩

/-- The hub after registering and then unregistering `cA`. -/
def stC3 : HubState := run [.reg cA "u" "n" "a", .unreg cA]

/-- The events for the C4 witness: two devices of user 7 register, then the
first unregisters. -/
def evsC4 : List HEvent := [.reg cA "u" "n" "a", .reg cB "u" "n" "a", .unreg cA]

/-- The events for the C5 counterexample: two devices of user 7 register,
then one unregisters while the other stays live. -/
def evsC5 : List HEvent := [.reg cA "u" "n" "a", .reg cB "u" "n" "a", .unreg cA]

/-- A clean session for user 7 holding a non-empty cursor map, used by the
grace-window witness. -/
def sC7 : UserSession :=
  { userID := 7, name := "u", nickname := "n", avatar := "a"
    readList := [(5, 100)], lastSeen := 4, dirty := true, lastFlush := 0
    lastReadChangeAt := 4 }

/-- A hub state in which user 7 is connected through `cA` only, with
session `sC7`. -/
def stC7 : HubState :=
  { clients := [cA], userClients := [(7, [cA])], sessions := [(7, sC7)]
    gcTimers := [], closedQueues := [], panicked := false, now := 5 }

/-- A hub state in which user 7 has the two connections `cA` and `cB`. -/
def stC6 : HubState :=
  { clients := [cA, cB], userClients := [(7, [cA, cB])], sessions := []
    gcTimers := [], closedQueues := [], panicked := false, now := 5 }

/-- Outbound queues for `stC6`: `cA`'s queue is full, every other queue is
empty. -/
def qC6 : Conn → List String :=
  fun c => if c = cA then List.replicate sendQueueCap "old" else []

/-- An oracle whose room lookup always fails, for the C8 counterexample. -/
def oC8 : RouterOracle :=
  { getRoom := fun _ => .error "record not found"
    blockedPrivate := fun _ _ => .ok false
    isMember := fun _ _ => .ok true
    saveMessage := fun _ _ _ _ => .error "save failed"
    getMembers := fun _ => .ok [] }

/-- An oracle for a group room 42 whose sender is no longer a member, for
the C8 witness. -/
def oC8w : RouterOracle :=
  { getRoom := fun r => if r = 42 then .ok ⟨42, 2⟩ else .error "record not found"
    blockedPrivate := fun _ _ => .ok false
    isMember := fun _ _ => .ok false
    saveMessage := fun _ _ _ _ => .error "save failed"
    getMembers := fun _ => .ok [7, 8] }

/-- A send request targeting room 42 with correlation id "p1". -/
def reqC8 : SendReq := { sendTo := 42, sendContent := "hi", sendType := 1, packetID := "p1" }

/-- An oracle for a private room 41 whose blocked-check DB query fails, for
the C8 query-error paths. -/
def oC8q : RouterOracle :=
  { getRoom := fun r => if r = 41 then .ok ⟨41, 1⟩ else .error "record not found"
    blockedPrivate := fun _ _ => .error ()
    isMember := fun _ _ => .error ()
    saveMessage := fun _ _ _ _ => .error "save failed"
    getMembers := fun _ => .ok [] }

/-- A send request targeting room 41 with correlation id "p2". -/
def reqC8q : SendReq := { sendTo := 41, sendContent := "hi", sendType := 1, packetID := "p2" }

/-- An idle, flushed session whose last change is exactly the idle threshold
in the past at time 15, for the C9 boundary counterexample. -/
def sC9 : UserSession :=
  { userID := 1, name := "u", nickname := "n", avatar := "a"
    readList := [(1, 5)], lastSeen := 10, dirty := false, lastFlush := 10
    lastReadChangeAt := 10 }

/-- A session with a non-empty cursor map, for the C10 witness. -/
def sC10 : UserSession :=
  { userID := 7, name := "u", nickname := "n", avatar := "a"
    readList := [(3, 9)], lastSeen := 4, dirty := true, lastFlush := 0
    lastReadChangeAt := 4 }

/-! ## Association-list lemmas -/

theorem alLookup_alInsert_self {α : Type} (k : Nat) (v : α) (l : List (Nat × α)) :
    alLookup k (alInsert k v l) = some v := by
  induction l with
  | nil => simp [alInsert, alLookup]
  | cons h t ih =>
    obtain ⟨k1, v1⟩ := h
    by_cases hk : k1 = k
    · subst hk; simp [alInsert, alLookup]
    · simp [alInsert, alLookup, hk, ih]

theorem alLookup_alInsert_ne {α : Type} (k k2 : Nat) (v : α) (l : List (Nat × α))
    (h : k ≠ k2) : alLookup k2 (alInsert k v l) = alLookup k2 l := by
  induction l with
  | nil => simp [alInsert, alLookup, h]
  | cons hd t ih =>
    obtain ⟨k1, v1⟩ := hd
    by_cases hk : k1 = k
    · subst hk
      simp [alInsert, alLookup, h, ih]
    · by_cases hk2 : k1 = k2
      · subst hk2
        simp [alInsert, alLookup, hk]
      · simp [alInsert, alLookup, hk, hk2, ih]

theorem alLookup_alErase_self {α : Type} (k : Nat) (l : List (Nat × α)) :
    alLookup k (alErase k l) = none := by
  induction l with
  | nil => rfl
  | cons hd t ih =>
    obtain ⟨k1, v1⟩ := hd
    by_cases hk : k1 = k
    · simpa [alErase, hk] using ih
    · simpa [alErase, alLookup, hk] using ih

theorem alLookup_alErase_ne {α : Type} (k k2 : Nat) (l : List (Nat × α))
    (h : k ≠ k2) : alLookup k2 (alErase k l) = alLookup k2 l := by
  induction l with
  | nil => rfl
  | cons hd t ih =>
    obtain ⟨k1, v1⟩ := hd
    by_cases hk : k1 = k
    · subst hk
      have hne : ¬ k1 = k2 := h
      simp [alErase, alLookup, hne, ih]
    · by_cases hk2 : k1 = k2
      · subst hk2
        simp [alErase, alLookup, hk]
      · simp [alErase, alLookup, hk, hk2, ih]

theorem alLookup_mem {α : Type} {k : Nat} {v : α} {l : List (Nat × α)}
    (h : alLookup k l = some v) : (k, v) ∈ l := by
  induction l with
  | nil => simp [alLookup] at h
  | cons hd t ih =>
    obtain ⟨k1, v1⟩ := hd
    by_cases hk : k1 = k
    · subst hk
      simp [alLookup] at h
      simp [h]
    · simp [alLookup, hk] at h
      exact List.mem_cons_of_mem _ (ih h)

theorem alLookup_eq_of_mem {α : Type} {k : Nat} {v : α} {l : List (Nat × α)}
    (hm : (k, v) ∈ l) (hnd : (alKeys l).Nodup) : alLookup k l = some v := by
  induction l with
  | nil => simp at hm
  | cons hd t ih =>
    obtain ⟨k1, v1⟩ := hd
    rw [List.mem_cons] at hm
    rcases hm with hm | hm
    · rw [Prod.mk.injEq] at hm
      obtain ⟨h1, h2⟩ := hm
      simp [alLookup, h1, h2]
    · have h0 : (k1 :: alKeys t).Nodup := by
        simpa [alKeys] using hnd
      have hk : k1 ≠ k := by
        intro hk
        subst hk
        exact (List.nodup_cons.mp h0).1
          (by simpa [alKeys] using List.mem_map_of_mem Prod.fst hm)
      simp [alLookup, hk, ih hm (List.nodup_cons.mp h0).2]

/-! ## Claim C1: monotonic cursor merge with zero sentinels -/

theorem cursorOf_mergeRead (s : UserSession) (roomID lastRead now : Nat)
    (hr : roomID ≠ 0) :
    cursorOf (mergeRead s roomID lastRead now) roomID
      = max (cursorOf s roomID) lastRead := by
  by_cases hx : lastRead = 0
  · subst hx
    simp [mergeRead]
  · have hcond : ¬ (roomID = 0 ∨ lastRead = 0) := by
      simp [hr, hx]
    by_cases hgt : lastRead > cursorOf s roomID
    · have h1 : mergeRead s roomID lastRead now
          = { s with readList := alInsert roomID lastRead s.readList
                     dirty := true, lastReadChangeAt := now, lastSeen := now } := by
        simp only [mergeRead, if_neg hcond, if_pos hgt]
      rw [h1]
      have h2 : cursorOf { s with readList := alInsert roomID lastRead s.readList
                                  dirty := true, lastReadChangeAt := now
                                  lastSeen := now } roomID = lastRead := by
        simp [cursorOf, alLookup_alInsert_self]
      rw [h2]
      exact (Nat.max_eq_right (Nat.le_of_lt hgt)).symm
    · have h1 : mergeRead s roomID lastRead now = { s with lastSeen := now } := by
        simp only [mergeRead, if_neg hcond, if_neg hgt]
      rw [h1]
      have h2 : cursorOf { s with lastSeen := now } roomID = cursorOf s roomID := rfl
      rw [h2]
      exact (Nat.max_eq_left (Nat.le_of_not_lt hgt)).symm

theorem cursorOf_mergeReadSeq (s : UserSession) (roomID : Nat)
    (acks : List (Nat × Nat)) (hr : roomID ≠ 0) :
    cursorOf (mergeReadSeq s roomID acks) roomID
      = max (cursorOf s roomID) (listMax (acks.map Prod.fst)) := by
  induction acks generalizing s with
  | nil => simp [mergeReadSeq, listMax]
  | cons p t ih =>
    have h1 : mergeReadSeq s roomID (p :: t)
        = mergeReadSeq (mergeRead s roomID p.1 p.2) roomID t := rfl
    rw [h1, ih, cursorOf_mergeRead s roomID p.1 p.2 hr]
    simp [listMax, Nat.max_assoc]

theorem listMax_perm {l1 l2 : List Nat} (h : l1.Perm l2) :
    listMax l1 = listMax l2 := by
  induction h with
  | nil => rfl
  | cons x _ ih => simp [listMax, List.foldr] at ih ⊢; rw [ih]
  | swap x y l =>
    simp [listMax, List.foldr]
    rw [← Nat.max_assoc, ← Nat.max_assoc, Nat.max_comm x y]
  | trans _ _ ih1 ih2 => exact ih1.trans ih2

/-- C1: for every sequence of `mergeRead(room, x)` calls on a session, the
stored cursor for that room equals the maximum of its previous value and
every `x` seen, hence is independent of arrival order (out-of-order and
duplicate acks are absorbed by the maximum), and any call with a zero room
id or zero message id leaves the session entirely unchanged. -/
theorem mergeRead_cursor_is_max :
    (∀ (s : UserSession) (roomID lastRead now : Nat),
        roomID = 0 ∨ lastRead = 0 → mergeRead s roomID lastRead now = s) ∧
    (∀ (s : UserSession) (roomID : Nat) (acks : List (Nat × Nat)), roomID ≠ 0 →
        cursorOf (mergeReadSeq s roomID acks) roomID
          = max (cursorOf s roomID) (listMax (acks.map Prod.fst))) ∧
    (∀ (s : UserSession) (roomID : Nat) (acks1 acks2 : List (Nat × Nat)), roomID ≠ 0 →
        (acks1.map Prod.fst).Perm (acks2.map Prod.fst) →
        cursorOf (mergeReadSeq s roomID acks1) roomID
          = cursorOf (mergeReadSeq s roomID acks2) roomID) := by
  refine ⟨?_, ?_, ?_⟩
  · intro s roomID lastRead now h
    simp [mergeRead, h]
  · intro s roomID acks hr
    exact cursorOf_mergeReadSeq s roomID acks hr
  · intro s roomID acks1 acks2 hr hperm
    rw [cursorOf_mergeReadSeq s roomID acks1 hr, cursorOf_mergeReadSeq s roomID acks2 hr,
      listMax_perm hperm]

/-- Witness for C1 at concrete inputs: zero-id calls are identities and an
out-of-order, duplicated ack sequence stores the maximum. -/
theorem mergeRead_cursor_is_max_witness :
    mergeRead sC1 0 9 2 = sC1 ∧ mergeRead sC1 5 0 2 = sC1 ∧
    cursorOf (mergeReadSeq sC1 5 [(100, 1), (40, 2), (100, 3), (7, 4)]) 5 = 100 := by
  refine ⟨mergeRead_cursor_is_max.1 sC1 0 9 2 (Or.inl rfl),
          mergeRead_cursor_is_max.1 sC1 5 0 2 (Or.inr rfl), ?_⟩
  have h := mergeRead_cursor_is_max.2.1 sC1 5 [(100, 1), (40, 2), (100, 3), (7, 4)]
    (by decide)
  rw [h]
  rfl

/-! ## Claim C9: pruneReadListIfIdle frame conditions -/

/-- C9 (amended): calling `pruneReadListIfIdle` on a session that is dirty,
or that has never been flushed, or whose last change is more recent than
the idle threshold, is a no-op, leaving the whole session unchanged; and
the cursor map is cleared only when the session is not dirty, has been
flushed at least once, and has been unchanged for *at least* (boundary
inclusive, not strictly longer than) the threshold. -/
theorem pruneIfIdle_frame :
    (∀ (s : UserSession) (idleFor now : Nat),
        s.dirty = true ∨ s.lastFlush = 0 ∨ now - s.lastReadChangeAt < idleFor →
        pruneReadListIfIdle s idleFor now = s) ∧
    (∀ (s : UserSession) (idleFor now : Nat),
        pruneReadListIfIdle s idleFor now = s ∨
          (s.dirty = false ∧ s.lastFlush ≠ 0 ∧ s.readList ≠ [] ∧
           s.lastReadChangeAt ≠ 0 ∧ idleFor ≠ 0 ∧
           idleFor ≤ now - s.lastReadChangeAt ∧
           pruneReadListIfIdle s idleFor now = { s with readList := [] })) := by
  constructor
  · intro s idleFor now h
    unfold pruneReadListIfIdle
    by_cases h1 : idleFor = 0
    · simp [h1]
    by_cases h2 : s.dirty = true
    · simp [h1, h2]
    by_cases h3 : s.readList = []
    · simp [h1, h2, h3]
    by_cases h4 : s.lastFlush = 0
    · simp [h1, h2, h3, h4]
    by_cases h5 : s.lastReadChangeAt = 0
    · simp [h1, h2, h3, h4, h5]
    by_cases h6 : now - s.lastReadChangeAt < idleFor
    · simp [h1, h2, h3, h4, h5, h6]
    · rcases h with hh | hh | hh
      · exact absurd hh h2
      · exact absurd hh h4
      · exact absurd hh h6
  · intro s idleFor now
    unfold pruneReadListIfIdle
    by_cases h1 : idleFor = 0
    · simp [h1]
    by_cases h2 : s.dirty = true
    · simp [h1, h2]
    by_cases h3 : s.readList = []
    · simp [h1, h2, h3]
    by_cases h4 : s.lastFlush = 0
    · simp [h1, h2, h3, h4]
    by_cases h5 : s.lastReadChangeAt = 0
    · simp [h1, h2, h3, h4, h5]
    by_cases h6 : now - s.lastReadChangeAt < idleFor
    · simp [h1, h2, h3, h4, h5, h6]
    · refine Or.inr ⟨?_, h4, h3, h5, h1, Nat.le_of_not_lt h6, ?_⟩
      · exact Bool.not_eq_true s.dirty ▸ (by simpa using h2)
      · simp [h1, h2, h3, h4, h5, h6]

/-- C9 counterexample: a clean, flushed session whose last change lies
exactly the threshold (5 ticks) in the past is cleared by the prune, even
though it has not been unchanged for *longer than* the threshold. -/
theorem pruneIfIdle_boundary_counterexample :
    (pruneReadListIfIdle sC9 5 15).readList = [] ∧
    sC9.readList ≠ [] ∧ ¬ (15 - sC9.lastReadChangeAt > 5) := by
  decide

/-- Witness for C9 at concrete inputs: the prune is a no-op on a dirty
session and clears an idle flushed one at the boundary. -/
theorem pruneIfIdle_frame_witness :
    pruneReadListIfIdle sC2 600 9 = sC2 ∧
    (pruneReadListIfIdle sC9 5 15 = sC9 ∨
      (sC9.dirty = false ∧ sC9.lastFlush ≠ 0 ∧ sC9.readList ≠ [] ∧
       sC9.lastReadChangeAt ≠ 0 ∧ (5 : Nat) ≠ 0 ∧
       (5 : Nat) ≤ 15 - sC9.lastReadChangeAt ∧
       pruneReadListIfIdle sC9 5 15 = { sC9 with readList := [] })) :=
  ⟨pruneIfIdle_frame.1 sC2 600 9 (Or.inl rfl), pruneIfIdle_frame.2 sC9 5 15⟩

/-! ## Claim C2: failed flushes -/

/-- C2 (amended): in the periodic-sweep path a failed `FlushUserRead` call
leaves the session — dirty flag and cursor map included — completely
unchanged, so it is retried at the next sweep; in the reclamation-timer
path, however, the flush outcome is ignored (the resulting hub state does
not depend on it) and the session is deleted from the hub's session map
whenever the user has no connections, so a failed reclamation flush loses
the in-memory dirty cursor state. -/
theorem flushFailure_retry_or_loss :
    (∀ (s : UserSession) (now : Nat), s.dirty = true → sweepSession s false now = s) ∧
    (∀ (st : HubState) (uid : Nat), gcFireStep st uid true = gcFireStep st uid false) ∧
    (∀ (st : HubState) (uid : Nat) (flushOk : Bool), byUserList st uid = [] →
        alLookup uid (gcFireStep st uid flushOk).sessions = none) := by
  refine ⟨?_, ?_, ?_⟩
  · intro s now hd
    by_cases he : s.readList = []
    · simp [sweepSession, snapshotReadAndDirty, he, pruneReadListIfIdle, hd]
    · simp [sweepSession, snapshotReadAndDirty, he, pruneReadListIfIdle, hd]
  · intro st uid
    rfl
  · intro st uid flushOk h
    simp [gcFireStep, h, alLookup_alErase_self]

/-- C2 counterexample: user 7 has zero connections and a dirty session with
an unflushed cursor; when the reclamation timer fires and the flush fails,
the session is removed from the hub anyway — the dirty cursor map is not
kept for a retry. -/
theorem reclamationFlushFailure_counterexample :
    sC2.dirty = true ∧ sC2.readList ≠ [] ∧ byUserList stC2 7 = [] ∧
    (alLookup 7 stC2.sessions).isSome = true ∧
    alLookup 7 (gcFireStep stC2 7 false).sessions = none := by
  decide

/-- Witness for C2 (amended) at concrete inputs. -/
theorem flushFailure_retry_or_loss_witness :
    sweepSession sC2 false 9 = sC2 ∧
    alLookup 7 (gcFireStep stC2 7 false).sessions = none :=
  ⟨flushFailure_retry_or_loss.1 sC2 9 rfl,
   flushFailure_retry_or_loss.2.2 stC2 7 false rfl⟩

/-! ## Claim C3: double unregister -/

/-- C3 (amended): processing an unregister event for an
already-unregistered connection never panics and does not close the
outbound queue a second time, and it leaves the client set, the `byUser`
lists and the session map unchanged — but it is not a complete no-op: it
unconditionally replaces the user's reclamation timer with a freshly
scheduled one. -/
theorem unregister_twice_safe (st : HubState) (c : Conn) (h : c ∉ st.clients) :
    (unregisterStep st c).clients = st.clients ∧
    (unregisterStep st c).userClients = st.userClients ∧
    (unregisterStep st c).sessions = st.sessions ∧
    (unregisterStep st c).closedQueues = st.closedQueues ∧
    (unregisterStep st c).panicked = st.panicked ∧
    (unregisterStep st c).gcTimers = alInsert c.uid st.now st.gcTimers := by
  simp [unregisterStep, h]

/-- C3 counterexample: after registering and unregistering connection `cA`,
a second unregister of `cA` does not panic, but it does change the
reclamation-timer map (a fresh timer replaces the pending one), so the
second attempt is not a no-op on the timer map. -/
theorem unregister_twice_counterexample :
    cA ∉ stC3.clients ∧
    (unregisterStep stC3 cA).gcTimers ≠ stC3.gcTimers ∧
    (unregisterStep stC3 cA).panicked = false := by
  decide

/-- Witness for C3 (amended) at a concrete state. -/
theorem unregister_twice_safe_witness :
    (unregisterStep stC3 cA).sessions = stC3.sessions ∧
    (unregisterStep stC3 cA).closedQueues = stC3.closedQueues ∧
    (unregisterStep stC3 cA).panicked = stC3.panicked := by
  have h := unregister_twice_safe stC3 cA (by decide)
  exact ⟨h.2.2.1, h.2.2.2.1, h.2.2.2.2.1⟩

/-! ## Claim C6: SendToUser fan-out isolation -/

theorem sendToUser_pointwise :
    ∀ (conns : List Conn) (Q : Conn → List String) (msg : String) (c : Conn),
      conns.Nodup →
      (c ∈ conns → sendToUser conns Q msg c = enqueueNonBlocking (Q c) msg) ∧
      (c ∉ conns → sendToUser conns Q msg c = Q c) := by
  intro conns
  induction conns with
  | nil =>
    intro Q msg c _
    simp [sendToUser]
  | cons a t ih =>
    intro Q msg c h
    have ha : a ∉ t := (List.nodup_cons.mp h).1
    have ht : t.Nodup := (List.nodup_cons.mp h).2
    have hstep : sendToUser (a :: t) Q msg
        = sendToUser t (fun c1 => if c1 = a then enqueueNonBlocking (Q a) msg else Q c1) msg :=
      rfl
    constructor
    · intro hc
      rcases List.mem_cons.mp hc with hEq | hct
      · subst hEq
        rw [hstep, (ih _ msg c ht).2 ha]
        simp
      · have hne : c ≠ a := fun hEq => ha (hEq ▸ hct)
        rw [hstep, (ih _ msg c ht).1 hct]
        simp [hne]
    · intro hc
      have hct : c ∉ t := fun hmem => hc (List.mem_cons_of_mem _ hmem)
      have hne : c ≠ a := fun hEq => hc (hEq ▸ List.mem_cons_self a t)
      rw [hstep, (ih _ msg c ht).2 hct]
      simp [hne]

/-- C6: for every `SendToUser(userID, payload)` call, each of that user's
live connections is treated independently: a connection whose bounded
queue has free capacity gets the payload appended, a connection with a
full queue is silently skipped (its queue — and every queue of a
connection not owned by the user — is left unchanged), and the result for
one connection never depends on another connection's queue; the function
is total, so the call neither blocks nor reports an error. -/
theorem sendToUser_per_connection (st : HubState) (uid : Nat) (Q : Conn → List String)
    (msg : String) (c : Conn) (h : (byUserList st uid).Nodup) :
    (c ∈ byUserList st uid →
        sendToUser (byUserList st uid) Q msg c = enqueueNonBlocking (Q c) msg) ∧
    (c ∉ byUserList st uid → sendToUser (byUserList st uid) Q msg c = Q c) :=
  sendToUser_pointwise (byUserList st uid) Q msg c h

/-- Witness for C6: with `cA`'s queue full and `cB`'s queue empty, a
fan-out to user 7 leaves `cA`'s queue unchanged and still delivers to
`cB`. -/
theorem sendToUser_per_connection_witness :
    sendToUser (byUserList stC6 7) qC6 "hello" cA = List.replicate sendQueueCap "old" ∧
    sendToUser (byUserList stC6 7) qC6 "hello" cB = ["hello"] := by
  have h1 := (sendToUser_per_connection stC6 7 qC6 "hello" cA (by decide)).1 (by decide)
  have h2 := (sendToUser_per_connection stC6 7 qC6 "hello" cB (by decide)).1 (by decide)
  rw [h1, h2]
  constructor
  · simp [enqueueNonBlocking, qC6]
  · simp [enqueueNonBlocking, qC6, cA, cB, sendQueueCap]

/-! ## Claim C10: bootstrap load -/

theorem alLookup_mergeRead_none (s : UserSession) (roomID lastRead now r : Nat)
    (h : alLookup r s.readList = none) (hz : roomID = r → lastRead = 0) :
    alLookup r (mergeRead s roomID lastRead now).readList = none := by
  by_cases h0 : roomID = 0 ∨ lastRead = 0
  · simp [mergeRead, h0, h]
  · push_neg at h0
    have hne : roomID ≠ r := fun hEq => h0.2 (hz hEq)
    have hcond : ¬ (roomID = 0 ∨ lastRead = 0) := by
      simp [h0.1, h0.2]
    by_cases hgt : lastRead > cursorOf s roomID
    · have h1 : mergeRead s roomID lastRead now
          = { s with readList := alInsert roomID lastRead s.readList
                     dirty := true, lastReadChangeAt := now, lastSeen := now } := by
        simp only [mergeRead, if_neg hcond, if_pos hgt]
      rw [h1]
      simpa [alLookup_alInsert_ne roomID r lastRead s.readList hne] using h
    · have h1 : mergeRead s roomID lastRead now = { s with lastSeen := now } := by
        simp only [mergeRead, if_neg hcond, if_neg hgt]
      rw [h1]
      exact h

theorem alLookup_foldMerge_none (m : List (Nat × Nat)) :
    ∀ (s : UserSession) (now r : Nat),
      alLookup r s.readList = none → (∀ p ∈ m, p.1 = r → p.2 = 0) →
      alLookup r (m.foldl (fun s p => mergeRead s p.1 p.2 now) s).readList = none := by
  induction m with
  | nil =>
    intro s now r h _
    exact h
  | cons p t ih =>
    intro s now r h hz
    simp only [List.foldl_cons]
    exact ih _ now r
      (alLookup_mergeRead_none s p.1 p.2 now r h (hz p (List.mem_cons_self p t)))
      (fun q hq => hz q (List.mem_cons_of_mem p hq))

theorem bootstrapLoad_noop (sess : UserSession) (dbResult : Option (List (Nat × Nat)))
    (now : Nat) (h : sess.readList ≠ []) :
    bootstrapLoad sess false dbResult now = sess := by
  have he : sess.readList.isEmpty = false := by
    simpa [List.isEmpty_iff] using h
  simp [bootstrapLoad, he]

theorem alLookup_bootstrapLoad_none (sess : UserSession) (created : Bool)
    (m : List (Nat × Nat)) (now r : Nat)
    (h : alLookup r sess.readList = none) (hz : ∀ p ∈ m, p.1 = r → p.2 = 0) :
    alLookup r (bootstrapLoad sess created (some m) now).readList = none := by
  unfold bootstrapLoad
  by_cases hc : (created || sess.readList.isEmpty) = true
  · simp only [hc, if_true]
    simpa using alLookup_foldMerge_none m sess now r h hz
  · simp only [Bool.not_eq_true] at hc
    simp [hc, h]

theorem bootstrapLoad_not_dirty (sess : UserSession) (created : Bool)
    (m : List (Nat × Nat)) (now : Nat) (h : created = true ∨ sess.readList = []) :
    (bootstrapLoad sess created (some m) now).dirty = false := by
  have hc : (created || sess.readList.isEmpty) = true := by
    rcases h with h | h
    · simp [h]
    · simp [h]
  simp [bootstrapLoad, hc]

/-- C10: on connection setup, the persisted cursors are loaded only when
the session is newly created or its in-memory cursor map is currently
empty (a non-empty map is left entirely unchanged); a room all of whose
persisted cursor values are zero (NULL in storage) is never inserted into
the in-memory map; and immediately after a load the session's dirty flag
is false, so the load alone never marks the session for a flush. -/
theorem bootstrapLoad_spec :
    (∀ (sess : UserSession) (dbResult : Option (List (Nat × Nat))) (now : Nat),
        sess.readList ≠ [] → bootstrapLoad sess false dbResult now = sess) ∧
    (∀ (sess : UserSession) (created : Bool) (m : List (Nat × Nat)) (now r : Nat),
        alLookup r sess.readList = none → (∀ p ∈ m, p.1 = r → p.2 = 0) →
        alLookup r (bootstrapLoad sess created (some m) now).readList = none) ∧
    (∀ (sess : UserSession) (created : Bool) (m : List (Nat × Nat)) (now : Nat),
        created = true ∨ sess.readList = [] →
        (bootstrapLoad sess created (some m) now).dirty = false) :=
  ⟨fun sess dbResult now h => bootstrapLoad_noop sess dbResult now h,
   fun sess created m now r h hz => alLookup_bootstrapLoad_none sess created m now r h hz,
   fun sess created m now h => bootstrapLoad_not_dirty sess created m now h⟩

/-- Witness for C10 at concrete inputs: a non-empty map skips the load, a
zero-valued room is not inserted, and a fresh load ends clean. -/
theorem bootstrapLoad_spec_witness :
    bootstrapLoad sC10 false (some [(3, 1), (8, 50)]) 9 = sC10 ∧
    alLookup 4 (bootstrapLoad sC1 true (some [(4, 0), (6, 11)]) 9).readList = none ∧
    (bootstrapLoad sC1 true (some [(4, 0), (6, 11)]) 9).dirty = false :=
  ⟨bootstrapLoad_spec.1 sC10 (some [(3, 1), (8, 50)]) 9 (by decide),
   bootstrapLoad_spec.2.1 sC1 true [(4, 0), (6, 11)] 9 4 (by decide) (by decide),
   bootstrapLoad_spec.2.2 sC1 true [(4, 0), (6, 11)] 9 (Or.inl rfl)⟩

/-! ## Claim C7: grace-window reconnect -/

theorem unregisterStep_sessions (st : HubState) (c : Conn) :
    (unregisterStep st c).sessions = st.sessions := by
  unfold unregisterStep
  by_cases h : c ∈ st.clients
  · rcases hl : alLookup c.uid st.userClients with _ | l
    · simp [h, hl]
    · simp [h, hl]
  · simp [h]

/-- C7: disconnecting a user's connection and reconnecting before the
reclamation timer fires preserves the in-memory room-to-cursor map
unchanged: the unregister path never flushes or clears the session, the
`ServeWS` preamble skips the bootstrap load because the in-memory map is
non-empty (so the load cannot overwrite or discard it), and after the
preamble and the register event the user has no pending reclamation
timer. -/
theorem graceWindowReconnect (st : HubState) (c1 c2 : Conn) (u : Nat)
    (sess : UserSession) (name nickname avatar : String)
    (dbResult : Option (List (Nat × Nat)))
    (h2 : c2.uid = u) (hs : alLookup u st.sessions = some sess)
    (hne : sess.readList ≠ []) :
    (∃ s3,
        alLookup u (registerStep
          (serveWsPrep (unregisterStep st c1) u name nickname avatar dbResult)
          c2 name nickname avatar).sessions = some s3 ∧
        s3.readList = sess.readList) ∧
    alLookup u (registerStep
      (serveWsPrep (unregisterStep st c1) u name nickname avatar dbResult)
      c2 name nickname avatar).gcTimers = none := by
  subst h2
  have hs1 : alLookup c2.uid (unregisterStep st c1).sessions = some sess := by
    rw [unregisterStep_sessions]
    exact hs
  have hst2 : serveWsPrep (unregisterStep st c1) c2.uid name nickname avatar dbResult
      = { unregisterStep st c1 with
            sessions := alInsert c2.uid
              { sess with name := name, nickname := nickname, avatar := avatar
                          lastSeen := (unregisterStep st c1).now }
              (unregisterStep st c1).sessions
            gcTimers := alErase c2.uid (unregisterStep st c1).gcTimers
            now := (unregisterStep st c1).now + 1 } := by
    simp only [serveWsPrep, hs1]
    rw [bootstrapLoad_noop
      { sess with name := name, nickname := nickname, avatar := avatar
                  lastSeen := (unregisterStep st c1).now }
      dbResult (unregisterStep st c1).now hne]
  have hs2 : alLookup c2.uid
      (serveWsPrep (unregisterStep st c1) c2.uid name nickname avatar dbResult).sessions
      = some { sess with name := name, nickname := nickname, avatar := avatar
                         lastSeen := (unregisterStep st c1).now } := by
    rw [hst2]
    exact alLookup_alInsert_self _ _ _
  constructor
  · have h3 : alLookup c2.uid (registerStep (serveWsPrep (unregisterStep st c1) c2.uid name nickname avatar dbResult) c2 name nickname avatar).sessions = some { sess with name := name, nickname := nickname, avatar := avatar, lastSeen := (serveWsPrep (unregisterStep st c1) c2.uid name nickname avatar dbResult).now } := by
      simp only [registerStep, hs2]
      exact alLookup_alInsert_self _ _ _
    exact ⟨_, h3, rfl⟩
  · simp only [registerStep]
    exact alLookup_alErase_self _ _

/-- Witness for C7: user 7 with cursor map `[(5, 100)]` disconnects and
reconnects within the grace window; the cursor map survives and no timer
is pending. -/
theorem graceWindowReconnect_witness :
    (∃ s3,
        alLookup 7 (registerStep
          (serveWsPrep (unregisterStep stC7 cA) 7 "x" "y" "z" (some [(5, 0), (9, 3)]))
          cB "x" "y" "z").sessions = some s3 ∧
        s3.readList = [(5, 100)]) ∧
    alLookup 7 (registerStep
      (serveWsPrep (unregisterStep stC7 cA) 7 "x" "y" "z" (some [(5, 0), (9, 3)]))
      cB "x" "y" "z").gcTimers = none := by
  have h := graceWindowReconnect stC7 cA cB 7 sC7 "x" "y" "z" (some [(5, 0), (9, 3)])
    rfl rfl (by decide)
  exact ⟨h.1, h.2⟩

/-! ## Claim C8: sender-only error envelopes -/

/-- C8 (amended): for an inbound send, a positive blocked verdict, a
negative group-membership verdict and a persistence failure each produce
exactly one error envelope, sent to the sender only, carrying the echoed
`packet_id`; a failed room lookup — like a malformed payload or a failed
blocked/membership query — produces no envelope at all (logged and
silently dropped); and in every case, any error envelope the router emits
goes to the sender with the sender's own correlation id, never to other
room members.  No path signals the connection to be torn down. -/
theorem onMessage_sender_only_errors (o : RouterOracle) (senderID : Nat)
    (sess : UserSession) (now : Nat) (req : SendReq) :
    ((onMessage o senderID sess now .badPayload).2 = []) ∧
    (∀ e, o.getRoom req.sendTo = .error e →
        (onMessage o senderID sess now (.sendMsg req)).2 = []) ∧
    (∀ room e, o.getRoom req.sendTo = .ok room → room.typ = 1 →
        o.blockedPrivate room.id senderID = .error e →
        (onMessage o senderID sess now (.sendMsg req)).2 = []) ∧
    (∀ room e, o.getRoom req.sendTo = .ok room → room.typ = 2 →
        o.isMember room.id senderID = .error e →
        (onMessage o senderID sess now (.sendMsg req)).2 = []) ∧
    (∀ room, o.getRoom req.sendTo = .ok room → room.typ = 1 →
        o.blockedPrivate room.id senderID = .ok true →
        (onMessage o senderID sess now (.sendMsg req)).2
          = [(senderID, .errorEnv blockedErrText req.packetID)]) ∧
    (∀ room, o.getRoom req.sendTo = .ok room → room.typ = 2 →
        o.isMember room.id senderID = .ok false →
        (onMessage o senderID sess now (.sendMsg req)).2
          = [(senderID, .errorEnv notMemberErrText req.packetID)]) ∧
    (∀ room e, o.getRoom req.sendTo = .ok room →
        (room.typ = 1 → o.blockedPrivate room.id senderID = .ok false) →
        (room.typ = 2 → o.isMember room.id senderID = .ok true) →
        o.saveMessage room.id senderID req.sendContent req.sendType = .error e →
        (onMessage o senderID sess now (.sendMsg req)).2
          = [(senderID, .errorEnv e req.packetID)]) ∧
    (∀ u msgText pid,
        (u, Outbound.errorEnv msgText pid) ∈ (onMessage o senderID sess now (.sendMsg req)).2 →
        u = senderID ∧ pid = req.packetID) := by
  refine ⟨rfl, ?_, ?_, ?_, ?_, ?_, ?_, ?_⟩
  · intro e hroom
    simp [onMessage, hroom]
  · intro room e hroom htyp hb
    simp [onMessage, hroom, htyp, hb]
  · intro room e hroom htyp hb
    have h1 : room.typ ≠ 1 := by
      rw [htyp]
      decide
    simp [onMessage, hroom, htyp, h1, hb]
  · intro room hroom htyp hblocked
    simp [onMessage, hroom, htyp, hblocked]
  · intro room hroom htyp hmem
    have h1 : room.typ ≠ 1 := by
      rw [htyp]
      decide
    simp [onMessage, hroom, htyp, h1, hmem]
  · intro room e hroom hblock hmember hsave
    by_cases h1 : room.typ = 1
    · have hb := hblock h1
      simp [onMessage, hroom, h1, hb, hsave]
    · by_cases hm2 : room.typ = 2
      · have hmem := hmember hm2
        simp [onMessage, hroom, h1, hm2, hmem, hsave]
      · simp [onMessage, hroom, h1, hm2, hsave]
  · intro u msgText pid hmem
    rcases hroom : o.getRoom req.sendTo with e | room
    · simp [onMessage, hroom] at hmem
    · by_cases h1 : room.typ = 1
      · rcases hb : o.blockedPrivate room.id senderID with e1 | b
        · simp [onMessage, hroom, h1, hb] at hmem
        · rcases b with _ | _
          · rcases hsave : o.saveMessage room.id senderID req.sendContent req.sendType
              with e2 | saved
            · simp [onMessage, hroom, h1, hb, hsave] at hmem
              exact ⟨hmem.1, hmem.2.2⟩
            · rcases hmembers : o.getMembers room.id with e3 | members
              · simp [onMessage, hroom, h1, hb, hsave, hmembers] at hmem
              · simp [onMessage, hroom, h1, hb, hsave, hmembers] at hmem
          · simp [onMessage, hroom, h1, hb] at hmem
            exact ⟨hmem.1, hmem.2.2⟩
      · by_cases hm2 : room.typ = 2
        · rcases hb : o.isMember room.id senderID with e1 | b
          · simp [onMessage, hroom, h1, hm2, hb] at hmem
          · rcases b with _ | _
            · simp [onMessage, hroom, h1, hm2, hb] at hmem
              exact ⟨hmem.1, hmem.2.2⟩
            · rcases hsave : o.saveMessage room.id senderID req.sendContent req.sendType
                with e2 | saved
              · simp [onMessage, hroom, h1, hm2, hb, hsave] at hmem
                exact ⟨hmem.1, hmem.2.2⟩
              · rcases hmembers : o.getMembers room.id with e3 | members
                · simp [onMessage, hroom, h1, hm2, hb, hsave, hmembers] at hmem
                · simp [onMessage, hroom, h1, hm2, hb, hsave, hmembers] at hmem
        · rcases hsave : o.saveMessage room.id senderID req.sendContent req.sendType
            with e2 | saved
          · simp [onMessage, hroom, h1, hm2, hsave] at hmem
            exact ⟨hmem.1, hmem.2.2⟩
          · rcases hmembers : o.getMembers room.id with e3 | members
            · simp [onMessage, hroom, h1, hm2, hsave, hmembers] at hmem
            · simp [onMessage, hroom, h1, hm2, hsave, hmembers] at hmem

/-- C8 counterexample: a send whose room lookup fails, a malformed
payload, and a send whose blocked-check DB query fails are each dropped
with no envelope at all — the sender does not receive an error envelope,
contradicting the claim that every failed validation produces one. -/
theorem sendError_silentDrop_counterexample :
    oC8.getRoom reqC8.sendTo = Except.error "record not found" ∧
    (onMessage oC8 5 sC1 1 (.sendMsg reqC8)).2 = [] ∧
    (onMessage oC8 5 sC1 1 Inbound.badPayload).2 = [] ∧
    oC8q.blockedPrivate 41 5 = Except.error () ∧
    (onMessage oC8q 5 sC1 1 (.sendMsg reqC8q)).2 = [] :=
  ⟨rfl, rfl, rfl, rfl, rfl⟩

/-- Witness for C8 (amended): a sender who is no longer a member of group
room 42 receives exactly one error envelope with the echoed packet id,
while a failed blocked-check query in private room 41 yields no envelope. -/
theorem onMessage_sender_only_errors_witness :
    (onMessage oC8w 5 sC1 1 (.sendMsg reqC8)).2
      = [(5, Outbound.errorEnv notMemberErrText "p1")] ∧
    (onMessage oC8q 5 sC1 1 (.sendMsg reqC8q)).2 = [] := by
  constructor
  · exact (onMessage_sender_only_errors oC8w 5 sC1 1 reqC8).2.2.2.2.2.1 ⟨42, 2⟩ rfl rfl rfl
  · exact (onMessage_sender_only_errors oC8q 5 sC1 1 reqC8q).2.2.1 ⟨41, 1⟩ () rfl rfl rfl

/-! ## Claims C4 and C5: registry and timer invariants of the event loop -/

theorem mem_alKeys_alInsert {α : Type} (k u : Nat) (v : α) (l : List (Nat × α)) :
    u ∈ alKeys (alInsert k v l) ↔ u = k ∨ u ∈ alKeys l := by
  induction l with
  | nil => simp [alInsert, alKeys, eq_comm]
  | cons hd t ih =>
    obtain ⟨k1, v1⟩ := hd
    by_cases hk : k1 = k
    · subst hk
      simp [alInsert, alKeys, eq_comm]
    · simp only [alInsert, if_neg hk]
      simp only [alKeys, List.map_cons] at ih ⊢
      rw [List.mem_cons, List.mem_cons, ih]
      tauto

theorem alKeys_alInsert_nodup {α : Type} (k : Nat) (v : α) (l : List (Nat × α))
    (h : (alKeys l).Nodup) : (alKeys (alInsert k v l)).Nodup := by
  induction l with
  | nil => simp [alInsert, alKeys]
  | cons hd t ih =>
    obtain ⟨k1, v1⟩ := hd
    have h0 : k1 ∉ alKeys t ∧ (alKeys t).Nodup := by
      simpa [alKeys, List.nodup_cons] using h
    by_cases hk : k1 = k
    · subst hk
      have hrw : alInsert k1 v ((k1, v1) :: t) = (k1, v) :: t := by
        simp [alInsert]
      rw [hrw]
      exact List.nodup_cons.mpr h0
    · have h1 : (alKeys (alInsert k v t)).Nodup := ih h0.2
      have h2 : k1 ∉ alKeys (alInsert k v t) := by
        rw [mem_alKeys_alInsert]
        rintro (h3 | h3)
        · exact hk h3
        · exact h0.1 h3
      have hrw : alInsert k v ((k1, v1) :: t) = (k1, v1) :: alInsert k v t := by
        simp [alInsert, hk]
      rw [hrw]
      exact List.nodup_cons.mpr ⟨h2, h1⟩

theorem mem_joinConns {c : Conn} {l : List (Nat × List Conn)} :
    c ∈ joinConns l ↔ ∃ p, p ∈ l ∧ c ∈ p.2 := by
  constructor
  · intro h
    rcases List.mem_flatten.mp h with ⟨a, ha, hc⟩
    rcases List.mem_map.mp ha with ⟨p, hp, hpa⟩
    exact ⟨p, hp, hpa ▸ hc⟩
  · rintro ⟨p, hp, hc⟩
    exact List.mem_flatten.mpr ⟨p.2, List.mem_map_of_mem Prod.snd hp, hc⟩

theorem joinConns_alInsert_append (l : List (Nat × List Conn)) (k : Nat) (c : Conn) :
    (joinConns (alInsert k ((alLookup k l).getD [] ++ [c]) l)).Perm (c :: joinConns l) := by
  induction l with
  | nil =>
    simp [alInsert, alLookup, joinConns]
  | cons hd t ih =>
    obtain ⟨k1, w1⟩ := hd
    by_cases hk : k1 = k
    · subst hk
      have h1 : alLookup k1 ((k1, w1) :: t) = some w1 := by
        simp [alLookup]
      rw [h1]
      simp only [Option.getD_some]
      have h2 : alInsert k1 (w1 ++ [c]) ((k1, w1) :: t) = (k1, w1 ++ [c]) :: t := by
        simp [alInsert]
      rw [h2]
      have h3 : joinConns ((k1, w1 ++ [c]) :: t) = w1 ++ c :: joinConns t := by
        simp [joinConns]
      rw [h3]
      have h4 : joinConns ((k1, w1) :: t) = w1 ++ joinConns t := by
        simp [joinConns]
      rw [h4]
      exact List.perm_middle
    · have h1 : alLookup k ((k1, w1) :: t) = alLookup k t := by
        simp [alLookup, hk]
      rw [h1]
      have h2 : alInsert k ((alLookup k t).getD [] ++ [c]) ((k1, w1) :: t)
          = (k1, w1) :: alInsert k ((alLookup k t).getD [] ++ [c]) t := by
        simp [alInsert, hk]
      rw [h2]
      have h3 : joinConns ((k1, w1) :: alInsert k ((alLookup k t).getD [] ++ [c]) t)
          = w1 ++ joinConns (alInsert k ((alLookup k t).getD [] ++ [c]) t) := by
        simp [joinConns]
      rw [h3]
      have h4 : joinConns ((k1, w1) :: t) = w1 ++ joinConns t := by
        simp [joinConns]
      rw [h4]
      exact (List.Perm.append_left w1 ih).trans List.perm_middle

theorem joinConns_alInsert_erase (l : List (Nat × List Conn)) (k : Nat)
    (w : List Conn) (c : Conn) (hw : alLookup k l = some w)
    (hother : ∀ p ∈ l, p.1 ≠ k → c ∉ p.2) (hnd : (alKeys l).Nodup) :
    joinConns (alInsert k (w.erase c) l) = (joinConns l).erase c := by
  induction l with
  | nil => simp [alLookup] at hw
  | cons hd t ih =>
    obtain ⟨k1, w1⟩ := hd
    have h0 : k1 ∉ alKeys t ∧ (alKeys t).Nodup := by
      simpa [alKeys, List.nodup_cons] using hnd
    by_cases hk : k1 = k
    · subst hk
      have hww : w1 = w := by
        simpa [alLookup] using hw
      subst hww
      have h2 : alInsert k1 (w1.erase c) ((k1, w1) :: t) = (k1, w1.erase c) :: t := by
        simp [alInsert]
      rw [h2]
      have hnott : c ∉ joinConns t := by
        intro hmem
        rcases mem_joinConns.mp hmem with ⟨p, hp, hcp⟩
        have hpk : p.1 ≠ k1 := by
          intro hEq
          exact h0.1 (hEq ▸ List.mem_map_of_mem Prod.fst hp)
        exact hother p (List.mem_cons_of_mem _ hp) hpk hcp
      have h3 : joinConns ((k1, w1.erase c) :: t) = w1.erase c ++ joinConns t := by
        simp [joinConns]
      have h4 : joinConns ((k1, w1) :: t) = w1 ++ joinConns t := by
        simp [joinConns]
      rw [h3, h4]
      by_cases hcw : c ∈ w1
      · rw [List.erase_append_left _ hcw]
      · rw [List.erase_append_right _ hcw, List.erase_of_not_mem hcw,
          List.erase_of_not_mem hnott]
    · have h1 : alLookup k t = some w := by
        simpa [alLookup, hk] using hw
      have h2 : alInsert k (w.erase c) ((k1, w1) :: t)
          = (k1, w1) :: alInsert k (w.erase c) t := by
        simp [alInsert, hk]
      rw [h2]
      have hcw1 : c ∉ w1 := hother (k1, w1) (List.mem_cons_self _ _) hk
      have h3 : joinConns ((k1, w1) :: alInsert k (w.erase c) t)
          = w1 ++ joinConns (alInsert k (w.erase c) t) := by
        simp [joinConns]
      have h4 : joinConns ((k1, w1) :: t) = w1 ++ joinConns t := by
        simp [joinConns]
      rw [h3, h4, ih h1 (fun p hp hpk => hother p (List.mem_cons_of_mem _ hp) hpk) h0.2,
        List.erase_append_right _ hcw1]

theorem exists_byUser_of_mem_clients (st : HubState) (hI : HubInv st) (c : Conn)
    (hc : c ∈ st.clients) :
    ∃ w, alLookup c.uid st.userClients = some w ∧ c ∈ w := by
  have hj : c ∈ joinConns st.userClients := hI.permJoin.mem_iff.mp hc
  rcases mem_joinConns.mp hj with ⟨p, hp, hcp⟩
  have hmem : (p.1, p.2) ∈ st.userClients := by
    simpa using hp
  have hlook : alLookup p.1 st.userClients = some p.2 :=
    alLookup_eq_of_mem hmem hI.keysNodup
  have huid : c.uid = p.1 := hI.uidsMatch p.1 p.2 hlook c hcp
  exact ⟨p.2, huid ▸ hlook, hcp⟩

theorem hubInv_init : HubInv initHub := by
  refine ⟨by simp [initHub, alKeys], ?_, ?_, by simp [initHub]⟩
  · intro u l h
    simp [initHub, alLookup] at h
  · simp only [initHub, joinConns, List.map_nil, List.flatten_nil]
    exact List.Perm.refl []

theorem hubInv_registerStep (st : HubState) (c : Conn) (name nickname avatar : String)
    (hI : HubInv st) (hc : c ∉ st.clients) :
    HubInv (registerStep st c name nickname avatar) := by
  have hcl : (registerStep st c name nickname avatar).clients = c :: st.clients := by
    simp [registerStep, hc]
  have hus : (registerStep st c name nickname avatar).userClients
      = alInsert c.uid (byUserList st c.uid ++ [c]) st.userClients := rfl
  constructor
  · rw [hus]
    exact alKeys_alInsert_nodup _ _ _ hI.keysNodup
  · intro u l h
    rw [hus] at h
    by_cases hu : u = c.uid
    · subst hu
      rw [alLookup_alInsert_self] at h
      have hl : l = byUserList st c.uid ++ [c] := by
        injection h with h
        exact h.symm
      subst hl
      intro x hx
      rcases List.mem_append.mp hx with hx | hx
      · unfold byUserList at hx
        rcases hlook : alLookup c.uid st.userClients with _ | w
        · rw [hlook] at hx
          simp at hx
        · rw [hlook] at hx
          exact hI.uidsMatch c.uid w hlook x (by simpa using hx)
      · have : x = c := by simpa using hx
        subst this
        rfl
    · rw [alLookup_alInsert_ne c.uid u _ _ (fun hEq => hu hEq.symm)] at h
      exact hI.uidsMatch u l h
  · rw [hcl, hus]
    exact (hI.permJoin.cons c).trans (joinConns_alInsert_append st.userClients c.uid c).symm
  · rw [hcl]
    exact List.nodup_cons.mpr ⟨hc, hI.clientsNodup⟩

theorem hubInv_unregisterStep (st : HubState) (c : Conn) (hI : HubInv st) :
    HubInv (unregisterStep st c) := by
  by_cases hc : c ∈ st.clients
  · rcases exists_byUser_of_mem_clients st hI c hc with ⟨w, hw, hcw⟩
    have heq : unregisterStep st c
        = { st with clients := st.clients.erase c
                    closedQueues := c :: st.closedQueues
                    panicked := st.panicked || decide (c ∈ st.closedQueues)
                    userClients := alInsert c.uid (w.erase c) st.userClients
                    gcTimers := alInsert c.uid st.now st.gcTimers
                    now := st.now + 1 } := by
      simp [unregisterStep, hc, hw]
    have hother : ∀ p ∈ st.userClients, p.1 ≠ c.uid → c ∉ p.2 := by
      intro p hp hpk hmem
      have hmem2 : (p.1, p.2) ∈ st.userClients := by simpa using hp
      have hlook := alLookup_eq_of_mem hmem2 hI.keysNodup
      exact hpk (hI.uidsMatch p.1 p.2 hlook c hmem).symm
    rw [heq]
    constructor
    · exact alKeys_alInsert_nodup _ _ _ hI.keysNodup
    · intro u l h
      by_cases hu : u = c.uid
      · subst hu
        rw [alLookup_alInsert_self] at h
        have hl : l = w.erase c := by
          injection h with h
          exact h.symm
        subst hl
        intro x hx
        exact hI.uidsMatch c.uid w hw x (List.mem_of_mem_erase hx)
      · rw [alLookup_alInsert_ne c.uid u _ _ (fun hEq => hu hEq.symm)] at h
        exact hI.uidsMatch u l h
    · show (st.clients.erase c).Perm (joinConns (alInsert c.uid (w.erase c) st.userClients))
      rw [joinConns_alInsert_erase st.userClients c.uid w c hw hother hI.keysNodup]
      exact hI.permJoin.erase c
    · exact hI.clientsNodup.erase c
  · have heq : unregisterStep st c
        = { st with gcTimers := alInsert c.uid st.now st.gcTimers, now := st.now + 1 } := by
      simp [unregisterStep, hc]
    rw [heq]
    exact ⟨hI.keysNodup, hI.uidsMatch, hI.permJoin, hI.clientsNodup⟩

theorem hubInv_runFrom (evs : List HEvent) :
    ∀ (st : HubState), validFrom st evs = true → HubInv st → HubInv (runFrom st evs) := by
  induction evs with
  | nil =>
    intro st _ hI
    exact hI
  | cons e t ih =>
    intro st hv hI
    cases e with
    | reg c n nk a =>
      have hv1 : ((decide (c ∉ st.clients) && decide (c ∉ st.closedQueues))
          && validFrom (hubStep st (HEvent.reg c n nk a)) t) = true := hv
      rw [Bool.and_eq_true, Bool.and_eq_true, decide_eq_true_iff, decide_eq_true_iff] at hv1
      exact ih _ hv1.2 (hubInv_registerStep st c n nk a hI hv1.1.1)
    | unreg c =>
      have hv1 : (true && validFrom (hubStep st (HEvent.unreg c)) t) = true := hv
      rw [Bool.true_and] at hv1
      exact ih _ hv1 (hubInv_unregisterStep st c hI)

theorem mem_byUserList_iff_mem_clients (st : HubState) (hI : HubInv st) (c : Conn) :
    c ∈ byUserList st c.uid ↔ c ∈ st.clients := by
  constructor
  · intro h
    unfold byUserList at h
    rcases hlook : alLookup c.uid st.userClients with _ | w
    · rw [hlook] at h
      simp at h
    · rw [hlook] at h
      have hw : c ∈ w := by simpa using h
      have hj : c ∈ joinConns st.userClients :=
        mem_joinConns.mpr ⟨(c.uid, w), alLookup_mem hlook, hw⟩
      exact hI.permJoin.mem_iff.mpr hj
  · intro h
    rcases exists_byUser_of_mem_clients st hI c h with ⟨w, hw, hcw⟩
    unfold byUserList
    rw [hw]
    simpa using hcw

theorem clients_length_eq_sum (st : HubState) (hI : HubInv st) :
    st.clients.length = sumUserConns st := by
  rw [hI.permJoin.length_eq]
  unfold joinConns sumUserConns
  rw [List.length_flatten, List.map_map]
  rfl

theorem mem_clients_hubStep (st : HubState) (e : HEvent) (c : Conn)
    (hnd : st.clients.Nodup)
    (hv : match e with | .reg c1 _ _ _ => c1 ∉ st.clients | .unreg _ => True) :
    decide (c ∈ (hubStep st e).clients)
      = (match e with
         | .reg c1 _ _ _ => if c1 = c then true else decide (c ∈ st.clients)
         | .unreg c1 => if c1 = c then false else decide (c ∈ st.clients)) := by
  cases e with
  | reg c1 n nk a =>
    have hcl : (hubStep st (.reg c1 n nk a)).clients = c1 :: st.clients := by
      simp [hubStep, registerStep, hv]
    rw [hcl]
    by_cases h : c1 = c
    · subst h
      simp
    · have hne : c ≠ c1 := fun hEq => h hEq.symm
      simp [List.mem_cons, hne, h]
  | unreg c1 =>
    by_cases hmem : c1 ∈ st.clients
    · have hcl : (hubStep st (.unreg c1)).clients = st.clients.erase c1 := by
        rcases hl : alLookup c1.uid st.userClients with _ | w <;>
          simp [hubStep, unregisterStep, hmem, hl]
      rw [hcl]
      by_cases h : c1 = c
      · subst h
        simp [hnd.mem_erase_iff]
      · have hne : c ≠ c1 := fun hEq => h hEq.symm
        simp [hnd.mem_erase_iff, hne, h]
    · have hcl : (hubStep st (.unreg c1)).clients = st.clients := by
        simp [hubStep, unregisterStep, hmem]
      rw [hcl]
      by_cases h : c1 = c
      · subst h
        simp [hmem]
      · simp [h]

theorem mem_clients_runFrom (evs : List HEvent) :
    ∀ (st : HubState), validFrom st evs = true → HubInv st →
    ∀ c, decide (c ∈ (runFrom st evs).clients) = liveFrom (decide (c ∈ st.clients)) evs c := by
  induction evs with
  | nil =>
    intro st _ _ c
    rfl
  | cons e t ih =>
    intro st hv hI c
    cases e with
    | reg c1 n nk a =>
      have hv1 : ((decide (c1 ∉ st.clients) && decide (c1 ∉ st.closedQueues))
          && validFrom (hubStep st (HEvent.reg c1 n nk a)) t) = true := hv
      rw [Bool.and_eq_true, Bool.and_eq_true, decide_eq_true_iff, decide_eq_true_iff] at hv1
      have hI2 : HubInv (hubStep st (HEvent.reg c1 n nk a)) :=
        hubInv_registerStep st c1 n nk a hI hv1.1.1
      have hstep := mem_clients_hubStep st (HEvent.reg c1 n nk a) c hI.clientsNodup hv1.1.1
      have h1 : runFrom st (HEvent.reg c1 n nk a :: t)
          = runFrom (hubStep st (HEvent.reg c1 n nk a)) t := rfl
      rw [h1, ih _ hv1.2 hI2 c, hstep]
      rfl
    | unreg c1 =>
      have hv1 : (true && validFrom (hubStep st (HEvent.unreg c1)) t) = true := hv
      rw [Bool.true_and] at hv1
      have hI2 : HubInv (hubStep st (HEvent.unreg c1)) := hubInv_unregisterStep st c1 hI
      have hstep := mem_clients_hubStep st (HEvent.unreg c1) c hI.clientsNodup trivial
      have h1 : runFrom st (HEvent.unreg c1 :: t)
          = runFrom (hubStep st (HEvent.unreg c1)) t := rfl
      rw [h1, ih _ hv1 hI2 c, hstep]
      rfl

/-- C4: after any valid sequence of register/unregister events (each
register carries a fresh connection, as `ServeWS` guarantees in Go), a
connection appears in `byUser` under its own user id exactly when it is
currently between its register and its unregister, and the size of the
client set equals the sum of the lengths of all `byUser` lists. -/
theorem registry_membership (evs : List HEvent) (hv : validFrom initHub evs = true)
    (c : Conn) :
    (c ∈ byUserList (run evs) c.uid ↔ liveAfter evs c = true) ∧
    (run evs).clients.length = sumUserConns (run evs) := by
  have hI : HubInv (run evs) := hubInv_runFrom evs initHub hv hubInv_init
  constructor
  · rw [mem_byUserList_iff_mem_clients (run evs) hI c]
    have h0 : decide (c ∈ (run evs).clients) = liveAfter evs c := by
      have h1 := mem_clients_runFrom evs initHub hv hubInv_init c
      have h2 : decide (c ∈ initHub.clients) = false := by
        simp [initHub]
      rw [h2] at h1
      exact h1
    constructor
    · intro h
      rw [← h0]
      exact decide_eq_true h
    · intro h
      exact of_decide_eq_true (h0 ▸ h)
  · exact clients_length_eq_sum (run evs) hI

/-- Witness for C4: two devices of user 7 register and the first
unregisters; the surviving connection is listed under user 7, and the
client count matches the summed list lengths. -/
theorem registry_membership_witness :
    validFrom initHub evsC4 = true ∧
    cB ∈ byUserList (run evsC4) 7 ∧
    (run evsC4).clients.length = sumUserConns (run evsC4) := by
  refine ⟨by decide, ?_, (registry_membership evsC4 (by decide) cB).2⟩
  exact (registry_membership evsC4 (by decide) cB).1.mpr (by decide)

theorem gcTimers_isSome_hubStep (st : HubState) (e : HEvent) (u : Nat) :
    (alLookup u (hubStep st e).gcTimers).isSome
      = (match e with
         | .reg c1 _ _ _ => if c1.uid = u then false
                            else (alLookup u st.gcTimers).isSome
         | .unreg c1 => if c1.uid = u then true
                        else (alLookup u st.gcTimers).isSome) := by
  cases e with
  | reg c1 n nk a =>
    have hgc : (hubStep st (.reg c1 n nk a)).gcTimers = alErase c1.uid st.gcTimers := rfl
    rw [hgc]
    by_cases h : c1.uid = u
    · subst h
      simp [alLookup_alErase_self]
    · simp [h, alLookup_alErase_ne c1.uid u st.gcTimers h]
  | unreg c1 =>
    have hgc : (hubStep st (.unreg c1)).gcTimers = alInsert c1.uid st.now st.gcTimers := by
      by_cases hmem : c1 ∈ st.clients
      · rcases hl : alLookup c1.uid st.userClients with _ | w <;>
          simp [hubStep, unregisterStep, hmem, hl]
      · simp [hubStep, unregisterStep, hmem]
    rw [hgc]
    by_cases h : c1.uid = u
    · subst h
      simp [alLookup_alInsert_self]
    · simp [h, alLookup_alInsert_ne c1.uid u st.now st.gcTimers h]

theorem gcTimers_isSome_runFrom (evs : List HEvent) :
    ∀ (st : HubState) (u : Nat),
      (alLookup u (runFrom st evs).gcTimers).isSome
        = lastUserEventIsUnreg ((alLookup u st.gcTimers).isSome) evs u := by
  induction evs with
  | nil =>
    intro st u
    rfl
  | cons e t ih =>
    intro st u
    have h1 : runFrom st (e :: t) = runFrom (hubStep st e) t := rfl
    rw [h1, ih (hubStep st e) u, gcTimers_isSome_hubStep st e u]
    cases e <;> rfl

/-- C5 (amended): a user has an entry in the reclamation-timer map exactly
when the most recent register/unregister event touching one of that user's
connections is an unregister — every unregister event schedules a timer
for the connection's user, whether or not that user still has other live
connections, and every register event cancels it. -/
theorem gcTimer_iff_lastEventUnreg (evs : List HEvent) (u : Nat) :
    (alLookup u (run evs).gcTimers).isSome = lastUserEventIsUnreg false evs u := by
  have h := gcTimers_isSome_runFrom evs initHub u
  have h2 : (alLookup u initHub.gcTimers).isSome = false := rfl
  rw [run, h, h2]

/-- C5 counterexample: user 7 registers two devices and unregisters one;
the user still has a live registered connection, yet a reclamation timer
is pending for user 7 — the timer map entry does not coincide with having
zero registered connections. -/
theorem gcTimer_liveConnections_counterexample :
    (alLookup 7 (run evsC5).gcTimers).isSome = true ∧
    byUserList (run evsC5) 7 ≠ [] ∧
    cB ∈ (run evsC5).clients := by
  decide

end ChatSdk
